import Mathlib

/-!
Verification of the vpcctl network-topology orchestration engine.

The Python sources are shallowly embedded: the topology store becomes an
explicit `TopoState`, the `NetworkUtils` primitive layer becomes a trace of
`NetCall` events, and each lifecycle operation becomes a pure function
returning its boolean outcome, the updated store and the issued trace.
IPv4 addresses are natural numbers; CIDR blocks carry a network address
and a mask length.
-/

namespace Vpcctl

/-! ## Address planner (src/core/subnets.py, `ipaddress` semantics) -/

/-- An IPv4 CIDR block: network address (as a 32-bit natural) and mask length. -/
structure CIDR where
  network : Nat
  prefixLen : Nat
deriving DecidableEq, Repr

/-- Number of addresses in the block. -/
def blockSize (b : CIDR) : Nat := 2 ^ (32 - b.prefixLen)

/-- Broadcast address: last address in the block. -/
def broadcast (b : CIDR) : Nat := b.network + blockSize b - 1

/-- Validity as enforced by `ipaddress.ip_network` with strict parsing:
mask length at most 32, network address below 2^32 and aligned to the block. -/
def Valid (b : CIDR) : Prop :=
  b.prefixLen ≤ 32 ∧ b.network < 2 ^ 32 ∧ b.network % blockSize b = 0

instance (b : CIDR) : Decidable (Valid b) := by
  unfold Valid; infer_instance

/-- The list produced by `list(network.hosts())` in the Python `ipaddress`
module (Python 3.8+ documented semantics): for a /32 the single address, for
a /31 both addresses, otherwise every address strictly between the network
and broadcast addresses. -/
def hosts (b : CIDR) : List Nat :=
  if b.prefixLen = 32 then [b.network]
  else if b.prefixLen = 31 then [b.network, b.network + 1]
  else (List.range (blockSize b - 2)).map (fun i => b.network + 1 + i)

/-- `SubnetManager._get_gateway_ip`: index 0 of `list(network.hosts())`;
`none` models the `IndexError` raised when the list is too short. -/
def get_gateway_ip (b : CIDR) : Option Nat := (hosts b)[0]?

/-- `SubnetManager._get_subnet_ip`: index 1 of `list(network.hosts())`;
`none` models the `IndexError` raised when the list is too short. -/
def get_subnet_ip (b : CIDR) : Option Nat := (hosts b)[1]?

/-- Modelled from the spec: the usable host addresses of a block are the
addresses of the block that are neither the network address nor the
broadcast address, in increasing order. -/
def usableHosts (b : CIDR) : List Nat :=
  ((List.range (blockSize b)).map (fun i => b.network + i)).filter
    (fun a => decide (a ≠ b.network ∧ a ≠ broadcast b))

/-! ## Data model (persisted records, src/core/vpc.py and src/core/subnets.py) -/

/-- A subnet sub-document as stored inside a VPC record. -/
structure SubnetCfg where
  name : String
  cidr : String
  type : String
  ns : String
  veth_ns : String
  veth_br : String
  gateway : String
  ip : String
deriving DecidableEq, Repr

/-- A persisted VPC record.  The NAT fields are absent until NAT is enabled;
their defaults model the `dict.get` fallbacks used by the Python code. -/
structure VPCCfg where
  name : String
  cidr : String
  bridge : String
  subnets : List SubnetCfg
  nat_enabled : Bool := false
  internet_interface : Option String := none
  public_subnet_cidrs : List String := []
deriving DecidableEq, Repr

/-- A persisted peering record. -/
structure PeeringCfg where
  vpc1 : String
  vpc2 : String
  veth1 : String
  veth2 : String
deriving DecidableEq, Repr

/-- The topology store: the VPC config files and the peering config files,
the latter keyed by their file name (the peering id). -/
structure TopoState where
  vpcs : List VPCCfg
  peerings : List (String × PeeringCfg)
deriving DecidableEq, Repr

/-- `_load_vpc_config` / `_get_vpc_config`: look a VPC record up by name. -/
def loadVpc (st : TopoState) (vpc_name : String) : Option VPCCfg :=
  st.vpcs.find? (fun v => v.name == vpc_name)

/-- `_save_vpc_config`: writing the record's file overwrites an existing
record of the same name, otherwise adds a new record. -/
def saveVpc (st : TopoState) (cfg : VPCCfg) : TopoState :=
  if st.vpcs.any (fun v => v.name == cfg.name) then
    { st with vpcs := st.vpcs.map (fun v => if v.name == cfg.name then cfg else v) }
  else
    { st with vpcs := st.vpcs ++ [cfg] }

/-- Deleting a VPC record's file. -/
def removeVpc (st : TopoState) (vpc_name : String) : TopoState :=
  { st with vpcs := st.vpcs.filter (fun v => !(v.name == vpc_name)) }

/-- The peering id used as a file name: `f"{vpc1}-{vpc2}"`. -/
def peeringKey (a b : String) : String := a ++ "-" ++ b

/-- Whether a peering record file with the given id exists. -/
def peeringStored (st : TopoState) (k : String) : Bool :=
  st.peerings.any (fun p => p.1 == k)

/-- `PeeringManager._peering_exists`: a peering exists when a record is
stored under either ordering of the pair. -/
def peering_exists (st : TopoState) (vpc1 vpc2 : String) : Bool :=
  peeringStored st (peeringKey vpc1 vpc2) || peeringStored st (peeringKey vpc2 vpc1)

/-- `_save_peering_config`: overwrite the record of the same id, or add it. -/
def savePeering (st : TopoState) (k : String) (cfg : PeeringCfg) : TopoState :=
  if st.peerings.any (fun p => p.1 == k) then
    { st with peerings := st.peerings.map (fun p => if p.1 == k then (k, cfg) else p) }
  else
    { st with peerings := st.peerings ++ [(k, cfg)] }

/-- Deleting a peering record's file. -/
def removePeering (st : TopoState) (k : String) : TopoState :=
  { st with peerings := st.peerings.filter (fun p => !(p.1 == k)) }

/-! ## The primitive layer as a trace (src/utils/network_utils.py) -/

/-- An inbound firewall directive, as built by
`NetworkUtils.apply_firewall_rule` before it is issued in a namespace. -/
structure Directive where
  ns : String
  protocol : String
  port : Option Nat
  target : String
deriving DecidableEq, Repr

/-- One call issued to the network primitive layer. -/
inductive NetCall where
  | createBridge (bridge : String)
  | deleteBridge (bridge : String)
  | createNetwork (ns : String)
  | deleteNetwork (ns : String)
  | createVethPair (v1 v2 : String)
  | attachToBridge (bridge iface : String)
  | moveToNamespace (iface ns : String)
  | setIpAddress (ns iface addr : String)
  | setBridgeIp (bridge addr : String)
  | addDefaultRoute (ns gw : String)
  | enableForwarding
  | natMasquerade (cidr iface : String)
  | natForwardAccept (bridge cidr iface : String)
  | natReturnAccept (iface bridge : String)
  | natMasqueradeDel (cidr iface : String)
  | natForwardDel (cidr bridge iface : String)
  | natReturnDel (cidr iface bridge : String)
  | isolationAdd (brIn brOut : String)
  | isolationDel (brIn brOut : String)
  | routeAdd (cidr gw dev : String)
  | firewall (d : Directive)
deriving DecidableEq, Repr

/-- `NetworkUtils.run_command`: with `check=True` a failed command raises
(`none`); with `check=False` failure is invisible to the caller. -/
def runCommand (success : Bool) (check : Bool) : Option Unit :=
  if check && !success then none else some ()

/-- `NetworkUtils.setup_nat`: enable forwarding, then per public block a
MASQUERADE rule and a FORWARD accept rule, then one return-traffic rule. -/
def setup_nat (bridge iface : String) (cidrs : List String) : List NetCall :=
  [NetCall.enableForwarding] ++
    (cidrs.map (fun c =>
      [NetCall.natMasquerade c iface, NetCall.natForwardAccept bridge c iface])).flatten ++
    [NetCall.natReturnAccept iface bridge]

/-- `NetworkUtils.cleanup_nat_rules`: per stored public block, delete the
MASQUERADE rule, the FORWARD accept rule and the return-traffic rule. -/
def cleanup_nat_rules (bridge iface : String) (cidrs : List String) : List NetCall :=
  (cidrs.map (fun c =>
    [NetCall.natMasqueradeDel c iface,
     NetCall.natForwardDel c bridge iface,
     NetCall.natReturnDel c iface bridge])).flatten

/-! ## VPC lifecycle manager (src/core/vpc.py) -/

/-- The subnets of a record whose stored type is the string `public`. -/
def publicSubnets (cfg : VPCCfg) : List SubnetCfg :=
  cfg.subnets.filter (fun s => s.type == "public")

/-- `VPCManager.enable_nat_gateway`: load the record (absent means failure
with no primitive call); enable IP forwarding; fail if no public subnet
exists; otherwise install the NAT rules for exactly the public subnets'
blocks and persist the NAT fields, including the snapshot of public blocks. -/
def enable_nat_gateway (st : TopoState) (vpc_name iface : String) :
    Bool × TopoState × List NetCall :=
  match loadVpc st vpc_name with
  | none => (false, st, [])
  | some cfg =>
    let pubs := publicSubnets cfg
    if pubs.isEmpty then (false, st, [NetCall.enableForwarding])
    else
      let cidrs := pubs.map (fun s => s.cidr)
      let cfg' := { cfg with
        nat_enabled := true
        internet_interface := some iface
        public_subnet_cidrs := cidrs }
      (true, saveVpc st cfg',
        NetCall.enableForwarding :: setup_nat cfg.bridge iface cidrs)

/-- `VPCManager._remove_vpc_isolation_rules`: for every other known VPC,
delete the two pairwise drop rules.  `list_vpcs` projections carry no
`bridge` key, so the other bridge name is always rebuilt as `br-<name>`. -/
def isolationDelCalls (st : TopoState) (bridge : String) : List NetCall :=
  (st.vpcs.map (fun v =>
    let other := "br-" ++ v.name
    if other == bridge then []
    else [NetCall.isolationDel bridge other, NetCall.isolationDel other bridge])).flatten

/-- The namespace-teardown calls of `delete_vpc`: the namespace id is
rebuilt as `ns-<vpc>-<subnet>` from the record names. -/
def namespaceDelCalls (vpc_name : String) (subs : List SubnetCfg) : List NetCall :=
  subs.map (fun s => NetCall.deleteNetwork ("ns-" ++ vpc_name ++ "-" ++ s.name))

/-- The NAT-cleanup segment of `delete_vpc`: issued only when the record has
`nat_enabled` and a truthy stored interface and a nonempty stored snapshot
of public blocks; it is built from the stored snapshot fields alone. -/
def natCleanupCalls (cfg : VPCCfg) : List NetCall :=
  if cfg.nat_enabled then
    match cfg.internet_interface with
    | some iface =>
        if iface ≠ "" ∧ cfg.public_subnet_cidrs ≠ [] then
          cleanup_nat_rules cfg.bridge iface cfg.public_subnet_cidrs
        else []
    | none => []
  else []

/-- `VPCManager.delete_vpc`: absent record means failure with no calls;
otherwise isolation-rule removal, NAT cleanup, namespace teardown, bridge
deletion, and erasure of the record, in that order. -/
def delete_vpc (st : TopoState) (vpc_name : String) :
    Bool × TopoState × List NetCall :=
  match loadVpc st vpc_name with
  | none => (false, st, [])
  | some cfg =>
      (true, removeVpc st vpc_name,
        isolationDelCalls st cfg.bridge
          ++ natCleanupCalls cfg
          ++ namespaceDelCalls vpc_name cfg.subnets
          ++ [NetCall.deleteBridge cfg.bridge])

/-! ## Peering lifecycle manager (src/core/peering.py) -/

/-- One direction of the route-installation loops in `create_peering`: for
each subnet block of the peer VPC, add a route on the local VPC's bridge via
the local VPC's first subnet's gateway; skipped entirely when the local VPC
has no subnets or its first gateway is falsy.  Each `ip route add` is run
with `check=False` inside a bare `try/except`, so the OS-level outcome
(the oracle `ok`) cannot influence the result. -/
def routeCallsOk (ok : String → Bool) (localCfg peerCfg : VPCCfg) : List NetCall :=
  match localCfg.subnets with
  | [] => []
  | s0 :: _ =>
      if s0.gateway = "" then []
      else
        (peerCfg.subnets.map (fun s =>
          match runCommand (ok s.cidr) false with
          | some _ => [NetCall.routeAdd s.cidr s0.gateway localCfg.bridge]
          | none => [NetCall.routeAdd s.cidr s0.gateway localCfg.bridge])).flatten

/-- `PeeringManager.create_peering`: fail if a record exists under either
ordering; fail if either VPC record is absent; otherwise create the veth
pair, attach one end to each bridge, run both best-effort route loops, and
persist the record under the id `vpc1-vpc2`. -/
def create_peering (st : TopoState) (vpc1 vpc2 : String) (ok : String → Bool) :
    Bool × TopoState × List NetCall :=
  if peering_exists st vpc1 vpc2 then (false, st, [])
  else
    match loadVpc st vpc1, loadVpc st vpc2 with
    | some c1, some c2 =>
        let veth1 := "peer-" ++ vpc1
        let veth2 := "peer-" ++ vpc2
        (true,
         savePeering st (peeringKey vpc1 vpc2) ⟨vpc1, vpc2, veth1, veth2⟩,
         [NetCall.createVethPair veth1 veth2,
          NetCall.attachToBridge c1.bridge veth1,
          NetCall.attachToBridge c2.bridge veth2]
           ++ routeCallsOk ok c1 c2
           ++ routeCallsOk ok c2 c1)
    | _, _ => (false, st, [])

/-- `PeeringManager.delete_peering`: find the record under either ordering;
fail if neither exists; otherwise only unlink the record file.  No network
primitive is invoked. -/
def delete_peering (st : TopoState) (vpc1 vpc2 : String) :
    Bool × TopoState × List NetCall :=
  let k1 := peeringKey vpc1 vpc2
  let k2 := peeringKey vpc2 vpc1
  if peeringStored st k1 then (true, removePeering st k1, [])
  else if peeringStored st k2 then (true, removePeering st k2, [])
  else (false, st, [])

/-! ## Firewall applier (src/core/firewall.py, apply_firewall_rule) -/

/-- One ingress rule of a rule-set document; every key may be absent. -/
structure FwRule where
  protocol : Option String
  port : Option Nat
  action : Option String
deriving DecidableEq, Repr

/-- A rule-set document: a target subnet block and the ingress rules. -/
structure RuleDoc where
  subnet : Option String
  ingress : List FwRule
deriving DecidableEq, Repr

/-- Python's `str.upper()` (character-wise uppercasing, as performed by
`String.toUpper` as well). -/
def pyUpper (s : String) : String := ⟨s.data.map Char.toUpper⟩

/-- `NetworkUtils.apply_firewall_rule`: protocol defaults to `tcp`, the
action defaults to `allow` and is uppercased, `ALLOW` becomes `ACCEPT` and
`DENY` becomes `DROP`, any other uppercased token is used as the target
directly; a missing (or falsy, i.e. zero) port yields an all-ports rule. -/
def apply_firewall_rule (ns : String) (r : FwRule) : Directive :=
  let protocol := r.protocol.getD "tcp"
  let action := pyUpper (r.action.getD "allow")
  let target :=
    if action = "ALLOW" then "ACCEPT"
    else if action = "DENY" then "DROP"
    else action
  let port :=
    match r.port with
    | some p => if p = 0 then none else some p
    | none => none
  ⟨ns, protocol, port, target⟩

/-- `FirewallManager.apply_firewall_rules`: fail when the VPC record is
absent or no subnet of the VPC has the document's block; otherwise issue one
directive per ingress rule, in document order, in the target subnet's
namespace.  The store is not modified. -/
def apply_firewall_rules (st : TopoState) (vpc_name : String) (doc : RuleDoc) :
    Bool × List NetCall :=
  match loadVpc st vpc_name with
  | none => (false, [])
  | some cfg =>
      match cfg.subnets.find? (fun s => doc.subnet == some s.cidr) with
      | none => (false, [])
      | some target =>
          (true, doc.ingress.map (fun r => NetCall.firewall (apply_firewall_rule target.ns r)))

/-! ## Address planner lemmas and claims -/

lemma usableHosts_eq (b : CIDR) (h : 2 ≤ blockSize b) :
    usableHosts b = (List.range (blockSize b - 2)).map (fun i => b.network + 1 + i) := by
  obtain ⟨m, hm⟩ : ∃ m, blockSize b = m + 2 := ⟨blockSize b - 2, by omega⟩
  have hb : broadcast b = b.network + (m + 1) := by
    unfold broadcast; rw [hm]; omega
  unfold usableHosts
  rw [hm, hb, List.filter_map]
  have hq : (List.range (m + 2)).filter
        ((fun a => decide (a ≠ b.network ∧ a ≠ b.network + (m + 1))) ∘ (fun i => b.network + i))
      = (List.range m).map (fun i => i + 1) := by
    have h2 : ∀ i ∈ List.range (m + 2),
        ((fun a => decide (a ≠ b.network ∧ a ≠ b.network + (m + 1))) ∘ (fun i => b.network + i)) i
          = decide (i ≠ 0 ∧ i ≠ m + 1) := by
      intro i _
      simp only [Function.comp]
      rw [decide_eq_decide]
      omega
    rw [List.filter_congr h2]
    rw [show m + 2 = (m + 1) + 1 from rfl, List.range_succ, List.filter_append]
    have h3 : (List.range (m + 1)).filter (fun i => decide (i ≠ 0 ∧ i ≠ m + 1))
        = (List.range (m + 1)).filter (fun i => decide (i ≠ 0)) := by
      apply List.filter_congr
      intro i hi
      rw [List.mem_range] at hi
      rw [decide_eq_decide]
      omega
    have h4 : (List.range (m + 1)).filter (fun i => decide (i ≠ 0))
        = (List.range m).map (fun i => i + 1) := by
      rw [List.range_succ_eq_map]
      rw [List.filter_cons]
      simp only [ne_eq, not_true_eq_false, decide_False, Bool.false_eq_true, if_false]
      rw [List.filter_eq_self.mpr (by intro a ha; simp at ha ⊢; omega)]
    rw [h3, h4]
    simp
  rw [hq, List.map_map]
  simp only [Nat.add_sub_cancel]
  apply List.map_congr_left
  intro i _
  simp only [Function.comp]
  omega

lemma usableHosts_length (b : CIDR) : (usableHosts b).length = blockSize b - 2 := by
  rcases le_or_lt 2 (blockSize b) with h | h
  · rw [usableHosts_eq b h]; simp
  · have h1 : 0 < blockSize b := Nat.pow_pos (by norm_num)
    have h2 : blockSize b = 1 := by omega
    have h3 : broadcast b = b.network := by unfold broadcast; omega
    unfold usableHosts
    rw [h2, h3]
    simp [List.range_succ]

lemma hosts_eq_usableHosts (b : CIDR) (h : b.prefixLen ≤ 30) :
    hosts b = usableHosts b := by
  have h2 : 2 ≤ blockSize b := by
    unfold blockSize
    calc 2 = 2 ^ 1 := by norm_num
    _ ≤ 2 ^ (32 - b.prefixLen) := Nat.pow_le_pow_right (by norm_num) (by omega)
  rw [usableHosts_eq b h2]
  unfold hosts
  rw [if_neg (by omega), if_neg (by omega)]

/-- Claim C1: for every CIDR block with at least two usable host addresses,
the gateway derivation returns the first usable host address and the host
derivation returns the second; the two differ and neither is the network or
the broadcast address of the block. -/
theorem gateway_host_are_first_two_usable (b : CIDR) (_hval : Valid b)
    (h : 2 ≤ (usableHosts b).length) :
    get_gateway_ip b = (usableHosts b)[0]? ∧
    get_subnet_ip b = (usableHosts b)[1]? ∧
    ∃ g s, get_gateway_ip b = some g ∧ get_subnet_ip b = some s ∧
      g ≠ s ∧ g ≠ b.network ∧ g ≠ broadcast b ∧ s ≠ b.network ∧ s ≠ broadcast b := by
  have hlen : (usableHosts b).length = blockSize b - 2 := usableHosts_length b
  have hk : 4 ≤ blockSize b := by omega
  have hp : b.prefixLen ≤ 30 := by
    by_contra hcon
    push_neg at hcon
    have h2 : blockSize b ≤ 2 := by
      unfold blockSize
      calc 2 ^ (32 - b.prefixLen) ≤ 2 ^ 1 := Nat.pow_le_pow_right (by norm_num) (by omega)
      _ = 2 := by norm_num
    omega
  have hh : hosts b = usableHosts b := hosts_eq_usableHosts b hp
  have hu : usableHosts b = (List.range (blockSize b - 2)).map (fun i => b.network + 1 + i) :=
    usableHosts_eq b (by omega)
  have h0 : (usableHosts b)[0]? = some (b.network + 1) := by
    rw [hu, List.getElem?_map, List.getElem?_range (by omega)]
    simp
  have h1 : (usableHosts b)[1]? = some (b.network + 2) := by
    rw [hu, List.getElem?_map, List.getElem?_range (by omega)]
    simp [Nat.add_assoc]
  have hbc : broadcast b = b.network + blockSize b - 1 := rfl
  refine ⟨by rw [get_gateway_ip, hh], by rw [get_subnet_ip, hh],
    b.network + 1, b.network + 2, ?_, ?_, by omega, by omega,
    by rw [hbc]; omega, by omega, by rw [hbc]; omega⟩
  · rw [get_gateway_ip, hh, h0]
  · rw [get_subnet_ip, hh, h1]

/-- A /30 block used as concrete input for the planner claims. -/
def b30 : CIDR := ⟨0, 30⟩

/-- Witness for claim C1 at the /30 block 0.0.0.0/30. -/
theorem gateway_host_are_first_two_usable_witness :
    get_gateway_ip b30 = (usableHosts b30)[0]? ∧
    get_subnet_ip b30 = (usableHosts b30)[1]? ∧
    ∃ g s, get_gateway_ip b30 = some g ∧ get_subnet_ip b30 = some s ∧
      g ≠ s ∧ g ≠ b30.network ∧ g ≠ broadcast b30 ∧ s ≠ b30.network ∧ s ≠ broadcast b30 :=
  gateway_host_are_first_two_usable b30 (by decide) (by decide)

/-- A /31 block used as concrete input for the planner claims. -/
def b31 : CIDR := ⟨0, 31⟩

/-- Claim C9 counterexample: the /31 block 0.0.0.0/31 has fewer than two
usable host addresses, yet neither derivation raises: the gateway derivation
returns the network address and the host derivation returns the broadcast
address (the Python 3.8+ `hosts()` yields both addresses of a /31). -/
theorem planner_not_partial_at_slash31_cex :
    (usableHosts b31).length = 0 ∧
    get_gateway_ip b31 = some 0 ∧ get_subnet_ip b31 = some 1 ∧
    get_gateway_ip b31 ≠ none ∧ get_subnet_ip b31 ≠ none := by decide

/-- Claim C9 (amended): the derivation pair is partial only at /32, where the
host derivation raises; the gateway derivation never raises on a valid block.
For a /31 both derivations return, but they return the network and broadcast
addresses, so the first/second-usable-host property holds only for mask
lengths of at most 30. -/
theorem planner_partiality (b : CIDR) (hv : Valid b) :
    (get_gateway_ip b).isSome = true ∧
    (get_subnet_ip b = none ↔ b.prefixLen = 32) ∧
    (b.prefixLen = 31 →
      get_gateway_ip b = some b.network ∧ get_subnet_ip b = some (broadcast b)) ∧
    (b.prefixLen = 32 → get_gateway_ip b = some b.network) := by
  have hple : b.prefixLen ≤ 32 := hv.1
  by_cases h32 : b.prefixLen = 32
  · have hh : hosts b = [b.network] := by unfold hosts; rw [if_pos h32]
    refine ⟨?_, ?_, ?_, ?_⟩
    · rw [get_gateway_ip, hh]; rfl
    · rw [get_subnet_ip, hh]; simp [h32]
    · intro h31; omega
    · intro _; rw [get_gateway_ip, hh]; rfl
  by_cases h31 : b.prefixLen = 31
  · have hh : hosts b = [b.network, b.network + 1] := by
      unfold hosts; rw [if_neg h32, if_pos h31]
    have hbc : broadcast b = b.network + 1 := by
      unfold broadcast blockSize; rw [h31]; norm_num
    refine ⟨?_, ?_, ?_, ?_⟩
    · rw [get_gateway_ip, hh]; rfl
    · rw [get_subnet_ip, hh]; simp [h32]
    · intro _; rw [get_gateway_ip, get_subnet_ip, hh, hbc]; exact ⟨rfl, rfl⟩
    · intro h; omega
  · have hp : b.prefixLen ≤ 30 := by omega
    have hk : 4 ≤ blockSize b := by
      unfold blockSize
      calc 4 = 2 ^ 2 := by norm_num
      _ ≤ 2 ^ (32 - b.prefixLen) := Nat.pow_le_pow_right (by norm_num) (by omega)
    have hh : hosts b = (List.range (blockSize b - 2)).map (fun i => b.network + 1 + i) := by
      unfold hosts; rw [if_neg h32, if_neg h31]
    refine ⟨?_, ?_, ?_, ?_⟩
    · rw [get_gateway_ip, hh, List.getElem?_map, List.getElem?_range (by omega)]; rfl
    · rw [get_subnet_ip, hh, List.getElem?_map, List.getElem?_range (by omega)]
      simp [h32]
    · intro h; omega
    · intro h; omega

/-- Witness for claim C9 (amended) at the /31 block 0.0.0.0/31. -/
theorem planner_partiality_witness :
    (get_gateway_ip b31).isSome = true ∧
    (get_subnet_ip b31 = none ↔ b31.prefixLen = 32) ∧
    (b31.prefixLen = 31 →
      get_gateway_ip b31 = some b31.network ∧ get_subnet_ip b31 = some (broadcast b31)) ∧
    (b31.prefixLen = 32 → get_gateway_ip b31 = some b31.network) :=
  planner_partiality b31 (by decide)

/-! ## Topology store lemmas -/

lemma any_congr {α : Type} (l : List α) (f g : α → Bool) (h : ∀ x ∈ l, f x = g x) :
    l.any f = l.any g := by
  induction l with
  | nil => rfl
  | cons x t ih =>
    simp only [List.any_cons]
    rw [h x (by simp), ih (fun y hy => h y (by simp [hy]))]

lemma peeringStored_savePeering_self (st : TopoState) (k : String) (cfg : PeeringCfg) :
    peeringStored (savePeering st k cfg) k = true := by
  unfold peeringStored savePeering
  by_cases h : st.peerings.any (fun p => p.1 == k)
  · rw [if_pos h]
    rw [List.any_eq_true] at h ⊢
    obtain ⟨p, hp, hpk⟩ := h
    refine ⟨(k, cfg), ?_, by simp⟩
    simp only [List.mem_map]
    exact ⟨p, hp, by simp [hpk]⟩
  · rw [if_neg h]
    simp

lemma peeringStored_removePeering (st : TopoState) (k k' : String) :
    peeringStored (removePeering st k) k' = (peeringStored st k' && !(k' == k)) := by
  unfold peeringStored removePeering
  simp only
  rw [List.any_filter]
  by_cases hk : k' = k
  · subst hk
    have h1 : st.peerings.any (fun p => !(p.1 == k') && (p.1 == k')) = false := by
      rw [List.any_eq_false]
      intro p _
      by_cases h : p.1 = k' <;> simp [h]
    rw [h1]
    simp
  · have h1 : ∀ p ∈ st.peerings, ((!(p.1 == k)) && (p.1 == k')) = (p.1 == k') := by
      intro p _
      by_cases h : p.1 = k'
      · simp [h, hk]
      · simp [h]
    rw [any_congr _ _ _ h1]
    simp [hk]

lemma loadVpc_removePeering (st : TopoState) (k vpc_name : String) :
    loadVpc (removePeering st k) vpc_name = loadVpc st vpc_name := rfl

lemma loadVpc_savePeering (st : TopoState) (k : String) (cfg : PeeringCfg) (vpc_name : String) :
    loadVpc (savePeering st k cfg) vpc_name = loadVpc st vpc_name := by
  unfold loadVpc savePeering
  by_cases h : st.peerings.any (fun p => p.1 == k) <;> simp [h]

lemma find?_map_replace (l : List VPCCfg) (cfg : VPCCfg) :
    l.any (fun v => v.name == cfg.name) = true →
    (l.map (fun v => if v.name == cfg.name then cfg else v)).find?
      (fun v => v.name == cfg.name) = some cfg := by
  induction l with
  | nil => intro h; simp at h
  | cons v t ih =>
    intro h
    by_cases hv : v.name = cfg.name
    · simp [List.map_cons, hv]
    · have h' : t.any (fun v => v.name == cfg.name) = true := by
        simp only [List.any_cons] at h
        simpa [hv] using h
      simp only [List.map_cons, if_neg (by simp [hv] : ¬((v.name == cfg.name) = true))]
      rw [List.find?_cons_of_neg _ (by simp [hv])]
      exact ih h'

lemma loadVpc_saveVpc_self (st : TopoState) (cfg : VPCCfg) :
    loadVpc (saveVpc st cfg) cfg.name = some cfg := by
  unfold loadVpc saveVpc
  by_cases h : st.vpcs.any (fun v => v.name == cfg.name)
  · rw [if_pos h]
    exact find?_map_replace st.vpcs cfg h
  · rw [if_neg h]
    simp only
    rw [List.find?_append]
    have h2 : st.vpcs.find? (fun v => v.name == cfg.name) = none := by
      rw [List.find?_eq_none]
      intro v hv
      rw [List.any_eq_true] at h
      push_neg at h
      simpa using h v hv
    rw [h2]
    simp

lemma loadVpc_removeVpc_self (st : TopoState) (vpc_name : String) :
    loadVpc (removeVpc st vpc_name) vpc_name = none := by
  unfold loadVpc removeVpc
  simp only
  rw [List.find?_eq_none]
  intro v hv
  rw [List.mem_filter] at hv
  simpa using hv.2

/-! ## Concrete sample topology used by the witnesses -/

/-- A public subnet of VPC `A`. -/
def subnetWeb : SubnetCfg :=
  ⟨"web", "10.0.1.0/24", "public", "ns-A-web", "v1n", "v1b", "10.0.1.1", "10.0.1.2"⟩

/-- A private subnet of VPC `A`. -/
def subnetDb : SubnetCfg :=
  ⟨"db", "10.0.2.0/24", "private", "ns-A-db", "v2n", "v2b", "10.0.2.1", "10.0.2.2"⟩

/-- A VPC with one public and one private subnet. -/
def vpcA : VPCCfg := ⟨"A", "10.0.0.0/16", "br-A", [subnetWeb, subnetDb], false, none, []⟩

/-- A public subnet of VPC `B`. -/
def subnetApp : SubnetCfg :=
  ⟨"app", "10.1.1.0/24", "public", "ns-B-app", "v3n", "v3b", "10.1.1.1", "10.1.1.2"⟩

/-- A second VPC with one public subnet. -/
def vpcB : VPCCfg := ⟨"B", "10.1.0.0/16", "br-B", [subnetApp], false, none, []⟩

/-- A private-only subnet of VPC `C`. -/
def subnetPriv : SubnetCfg :=
  ⟨"priv", "10.2.1.0/24", "private", "ns-C-priv", "v4n", "v4b", "10.2.1.1", "10.2.1.2"⟩

/-- A VPC with only private subnets. -/
def vpcC : VPCCfg := ⟨"C", "10.2.0.0/16", "br-C", [subnetPriv], false, none, []⟩

/-- A store holding the three sample VPCs and no peering. -/
def stABC : TopoState := ⟨[vpcA, vpcB, vpcC], []⟩

/-- An oracle under which every OS command succeeds. -/
def okAll : String → Bool := fun _ => true

/-! ## NAT gateway claims (C2, C10) -/

lemma setup_nat_shape (bridge iface : String) (cidrs : List String) :
    ∀ e ∈ setup_nat bridge iface cidrs,
      e = NetCall.enableForwarding ∨ e = NetCall.natReturnAccept iface bridge ∨
      ∃ c ∈ cidrs, e = NetCall.natMasquerade c iface ∨ e = NetCall.natForwardAccept bridge c iface := by
  intro e he
  simp only [setup_nat, List.mem_append, List.mem_singleton, List.mem_flatten,
    List.mem_map] at he
  rcases he with (he | ⟨l, ⟨c, hc, rfl⟩, hel⟩) | he
  · left; exact he
  · simp only [List.mem_cons, List.mem_singleton, List.not_mem_nil, or_false] at hel
    rcases hel with rfl | rfl
    · exact Or.inr (Or.inr ⟨c, hc, Or.inl rfl⟩)
    · exact Or.inr (Or.inr ⟨c, hc, Or.inr rfl⟩)
  · right; left; exact he

/-- Claim C2: `enableNat` returns failure (not an exception) when the VPC
record is absent and when the VPC has no public subnet; with at least one
public subnet it succeeds, installs NAT rules scoped to exactly the public
subnets' blocks, and persists `natEnabled`, the interface and a frozen copy
of the public block set. -/
theorem enable_nat_gateway_spec (st : TopoState) (vpc_name iface : String) :
    (loadVpc st vpc_name = none →
      enable_nat_gateway st vpc_name iface = (false, st, [])) ∧
    (∀ cfg, loadVpc st vpc_name = some cfg → publicSubnets cfg = [] →
      enable_nat_gateway st vpc_name iface = (false, st, [NetCall.enableForwarding])) ∧
    (∀ cfg, loadVpc st vpc_name = some cfg → publicSubnets cfg ≠ [] →
      (enable_nat_gateway st vpc_name iface).1 = true ∧
      (enable_nat_gateway st vpc_name iface).2.2 =
        NetCall.enableForwarding ::
          setup_nat cfg.bridge iface ((publicSubnets cfg).map (fun s => s.cidr)) ∧
      (∀ c i, NetCall.natMasquerade c i ∈ (enable_nat_gateway st vpc_name iface).2.2 →
        c ∈ (publicSubnets cfg).map (fun s => s.cidr)) ∧
      (∀ br c i, NetCall.natForwardAccept br c i ∈ (enable_nat_gateway st vpc_name iface).2.2 →
        c ∈ (publicSubnets cfg).map (fun s => s.cidr)) ∧
      loadVpc (enable_nat_gateway st vpc_name iface).2.1 vpc_name =
        some { cfg with
          nat_enabled := true
          internet_interface := some iface
          public_subnet_cidrs := (publicSubnets cfg).map (fun s => s.cidr) }) := by
  refine ⟨?_, ?_, ?_⟩
  · intro h
    simp [enable_nat_gateway, h]
  · intro cfg h hpub
    simp [enable_nat_gateway, h, hpub]
  · intro cfg h hpub
    have hname : cfg.name = vpc_name := by
      have h2 := List.find?_some h
      exact eq_of_beq h2
    have hne : (publicSubnets cfg).isEmpty = false := by
      cases hE : (publicSubnets cfg).isEmpty
      · rfl
      · exact absurd (List.isEmpty_iff.mp hE) hpub
    refine ⟨by simp [enable_nat_gateway, h, hne], by simp [enable_nat_gateway, h, hne],
      ?_, ?_, ?_⟩
    · intro c i hmem
      simp only [enable_nat_gateway, h, hne] at hmem
      simp only [Bool.false_eq_true, if_false, List.mem_cons] at hmem
      rcases hmem with hmem | hmem
      · exact absurd hmem (by simp)
      · rcases setup_nat_shape _ _ _ _ hmem with h1 | h1 | ⟨c', hc', h1 | h1⟩
        · exact absurd h1 (by simp)
        · exact absurd h1 (by simp)
        · obtain ⟨rfl, rfl⟩ : c = c' ∧ i = iface := by
            injection h1 with e1 e2
            exact ⟨e1, e2⟩
          exact hc'
        · exact absurd h1 (by simp)
    · intro br c i hmem
      simp only [enable_nat_gateway, h, hne] at hmem
      simp only [Bool.false_eq_true, if_false, List.mem_cons] at hmem
      rcases hmem with hmem | hmem
      · exact absurd hmem (by simp)
      · rcases setup_nat_shape _ _ _ _ hmem with h1 | h1 | ⟨c', hc', h1 | h1⟩
        · exact absurd h1 (by simp)
        · exact absurd h1 (by simp)
        · exact absurd h1 (by simp)
        · obtain ⟨rfl, rfl⟩ : br = cfg.bridge ∧ c = c' := by
            injection h1 with e1 e2 e3
            exact ⟨e1, e2⟩
          exact hc'
    · simp only [enable_nat_gateway, h, hne]
      simp only [Bool.false_eq_true, if_false]
      rw [← hname]
      exact loadVpc_saveVpc_self st _

/-- Witness for claim C2: all three branches at the sample store. -/
theorem enable_nat_gateway_spec_witness :
    enable_nat_gateway stABC "Z" "eth0" = (false, stABC, []) ∧
    enable_nat_gateway stABC "C" "eth0" = (false, stABC, [NetCall.enableForwarding]) ∧
    (enable_nat_gateway stABC "A" "eth0").1 = true :=
  ⟨(enable_nat_gateway_spec stABC "Z" "eth0").1 (by decide),
   (enable_nat_gateway_spec stABC "C" "eth0").2.1 vpcC (by decide) (by decide),
   ((enable_nat_gateway_spec stABC "A" "eth0").2.2 vpcA (by decide) (by decide)).1⟩

/-- Claim C10: on an existing VPC without public subnets, `enableNat` fails
and leaves the store unchanged, but the process-wide IP-forwarding primitive
has already been issued before the public-subnet check. -/
theorem enable_nat_zero_public_side_effect (st : TopoState) (vpc_name iface : String)
    (cfg : VPCCfg) (h : loadVpc st vpc_name = some cfg)
    (hpub : publicSubnets cfg = []) :
    enable_nat_gateway st vpc_name iface = (false, st, [NetCall.enableForwarding]) ∧
    NetCall.enableForwarding ∈ (enable_nat_gateway st vpc_name iface).2.2 := by
  have h1 : enable_nat_gateway st vpc_name iface = (false, st, [NetCall.enableForwarding]) := by
    simp [enable_nat_gateway, h, hpub]
  exact ⟨h1, by rw [h1]; simp⟩

/-- Witness for claim C10 at the private-only VPC `C`. -/
theorem enable_nat_zero_public_side_effect_witness :
    enable_nat_gateway stABC "C" "ethX" = (false, stABC, [NetCall.enableForwarding]) ∧
    NetCall.enableForwarding ∈ (enable_nat_gateway stABC "C" "ethX").2.2 :=
  enable_nat_zero_public_side_effect stABC "C" "ethX" vpcC (by decide) (by decide)

/-! ## VPC deletion claim (C6) -/

/-- Claim C6: deleting an existing VPC issues, in order, the isolation-rule
removals, then the NAT cleanup (only when NAT was enabled, built from the
stored snapshot of public blocks and interface, independent of the live
subnet list), then one namespace deletion per subnet, then the bridge
deletion, and finally erases the persisted record. -/
theorem delete_vpc_teardown_order (st : TopoState) (vpc_name : String) (cfg : VPCCfg)
    (h : loadVpc st vpc_name = some cfg) :
    delete_vpc st vpc_name =
      (true, removeVpc st vpc_name,
        isolationDelCalls st cfg.bridge
          ++ natCleanupCalls cfg
          ++ namespaceDelCalls vpc_name cfg.subnets
          ++ [NetCall.deleteBridge cfg.bridge]) ∧
    loadVpc (delete_vpc st vpc_name).2.1 vpc_name = none ∧
    (cfg.nat_enabled = false → natCleanupCalls cfg = []) ∧
    (∀ iface, cfg.nat_enabled = true → cfg.internet_interface = some iface →
      iface ≠ "" → cfg.public_subnet_cidrs ≠ [] →
      natCleanupCalls cfg = cleanup_nat_rules cfg.bridge iface cfg.public_subnet_cidrs) ∧
    (∀ subs, natCleanupCalls { cfg with subnets := subs } = natCleanupCalls cfg) ∧
    (∀ e ∈ isolationDelCalls st cfg.bridge, ∃ b1 b2, e = NetCall.isolationDel b1 b2) ∧
    (∀ e ∈ namespaceDelCalls vpc_name cfg.subnets, ∃ n, e = NetCall.deleteNetwork n) := by
  refine ⟨by simp [delete_vpc, h], ?_, ?_, ?_, ?_, ?_, ?_⟩
  · simp [delete_vpc, h, loadVpc_removeVpc_self]
  · intro hnat
    simp [natCleanupCalls, hnat]
  · intro iface hnat hi hne hcidrs
    simp [natCleanupCalls, hnat, hi, hne, hcidrs]
  · intro subs
    rfl
  · intro e he
    simp only [isolationDelCalls, List.mem_flatten, List.mem_map] at he
    obtain ⟨l, ⟨v, _, rfl⟩, hel⟩ := he
    by_cases hb : ("br-" ++ v.name == cfg.bridge) = true
    · rw [if_pos hb] at hel
      simp at hel
    · rw [if_neg hb] at hel
      simp only [List.mem_cons, List.mem_singleton, List.not_mem_nil, or_false] at hel
      rcases hel with rfl | rfl
      · exact ⟨cfg.bridge, "br-" ++ v.name, rfl⟩
      · exact ⟨"br-" ++ v.name, cfg.bridge, rfl⟩
  · intro e he
    simp only [namespaceDelCalls, List.mem_map] at he
    obtain ⟨s, _, rfl⟩ := he
    exact ⟨_, rfl⟩

/-- Witness for claim C6 at the sample VPC `A`. -/
theorem delete_vpc_teardown_order_witness :
    delete_vpc stABC "A" =
      (true, removeVpc stABC "A",
        isolationDelCalls stABC vpcA.bridge
          ++ natCleanupCalls vpcA
          ++ namespaceDelCalls "A" vpcA.subnets
          ++ [NetCall.deleteBridge vpcA.bridge]) ∧
    loadVpc (delete_vpc stABC "A").2.1 "A" = none ∧
    (vpcA.nat_enabled = false → natCleanupCalls vpcA = []) ∧
    (∀ iface, vpcA.nat_enabled = true → vpcA.internet_interface = some iface →
      iface ≠ "" → vpcA.public_subnet_cidrs ≠ [] →
      natCleanupCalls vpcA = cleanup_nat_rules vpcA.bridge iface vpcA.public_subnet_cidrs) ∧
    (∀ subs, natCleanupCalls { vpcA with subnets := subs } = natCleanupCalls vpcA) ∧
    (∀ e ∈ isolationDelCalls stABC vpcA.bridge, ∃ b1 b2, e = NetCall.isolationDel b1 b2) ∧
    (∀ e ∈ namespaceDelCalls "A" vpcA.subnets, ∃ n, e = NetCall.deleteNetwork n) :=
  delete_vpc_teardown_order stABC "A" vpcA (by decide)

/-! ## Peering claims (C3, C5, C8) -/

/-- A store holding just the two sample VPCs and no peering. -/
def stAB : TopoState := ⟨[vpcA, vpcB], []⟩

lemma routeCallsOk_nil (ok : String → Bool) (lc pc : VPCCfg) (h : lc.subnets = []) :
    routeCallsOk ok lc pc = [] := by
  unfold routeCallsOk
  rw [h]

lemma routeCallsOk_cons (ok : String → Bool) (lc pc : VPCCfg) (s0 : SubnetCfg)
    (rest : List SubnetCfg) (h : lc.subnets = s0 :: rest) (hg : s0.gateway ≠ "") :
    routeCallsOk ok lc pc =
      pc.subnets.map (fun s => NetCall.routeAdd s.cidr s0.gateway lc.bridge) := by
  unfold routeCallsOk
  rw [h]
  simp only
  rw [if_neg hg]
  induction pc.subnets with
  | nil => rfl
  | cons s t ih =>
    simp only [List.map_cons, List.flatten_cons]
    rw [← ih]
    rfl

lemma routeCallsOk_ok_irrel (ok ok2 : String → Bool) (lc pc : VPCCfg) :
    routeCallsOk ok lc pc = routeCallsOk ok2 lc pc := rfl

lemma create_peering_ok_irrel (st : TopoState) (a b : String) (ok ok2 : String → Bool) :
    create_peering st a b ok2 = create_peering st a b ok := rfl

lemma create_peering_of_exists (st : TopoState) (a b : String) (ok : String → Bool)
    (h : peering_exists st a b = true) :
    create_peering st a b ok = (false, st, []) := by
  unfold create_peering
  rw [if_pos h]

/-- Claim C3 counterexample: with VPC `A` (first gateway 10.0.1.1) and VPC
`B` (one subnet 10.1.1.0/24, first gateway 10.1.1.1), peering creation adds
on `A`'s bridge a route toward `B`'s block whose next hop is `A`'s own first
gateway, and no route via the peer's gateway 10.1.1.1 exists; likewise the
route on `B`'s bridge uses `B`'s own gateway. -/
theorem create_peering_peer_gateway_cex :
    (create_peering stAB "A" "B" okAll).1 = true ∧
    NetCall.routeAdd "10.1.1.0/24" "10.0.1.1" "br-A" ∈ (create_peering stAB "A" "B" okAll).2.2 ∧
    NetCall.routeAdd "10.1.1.0/24" "10.1.1.1" "br-A" ∉ (create_peering stAB "A" "B" okAll).2.2 ∧
    NetCall.routeAdd "10.0.1.0/24" "10.1.1.1" "br-B" ∈ (create_peering stAB "A" "B" okAll).2.2 ∧
    NetCall.routeAdd "10.0.1.0/24" "10.0.1.1" "br-B" ∉ (create_peering stAB "A" "B" okAll).2.2 := by
  decide

/-- Claim C3 (amended): for existing VPCs without a prior peering, creation
succeeds and installs, in each VPC's bridge, one route per subnet block of
the peer VPC whose next hop is the first subnet's gateway of the local VPC
(the VPC owning that bridge), skipped when the local VPC has no subnets;
route-installation failures are swallowed: the whole result is independent
of the per-command success oracle. -/
theorem create_peering_routes_local_gateway (st : TopoState) (a b : String)
    (ok : String → Bool) (c1 c2 : VPCCfg)
    (hne : peering_exists st a b = false)
    (h1 : loadVpc st a = some c1) (h2 : loadVpc st b = some c2) :
    (create_peering st a b ok).1 = true ∧
    (create_peering st a b ok).2.2 =
      [NetCall.createVethPair ("peer-" ++ a) ("peer-" ++ b),
       NetCall.attachToBridge c1.bridge ("peer-" ++ a),
       NetCall.attachToBridge c2.bridge ("peer-" ++ b)]
        ++ routeCallsOk ok c1 c2 ++ routeCallsOk ok c2 c1 ∧
    (∀ s0 rest, c1.subnets = s0 :: rest → s0.gateway ≠ "" →
      routeCallsOk ok c1 c2 =
        c2.subnets.map (fun s => NetCall.routeAdd s.cidr s0.gateway c1.bridge)) ∧
    (∀ s0 rest, c2.subnets = s0 :: rest → s0.gateway ≠ "" →
      routeCallsOk ok c2 c1 =
        c1.subnets.map (fun s => NetCall.routeAdd s.cidr s0.gateway c2.bridge)) ∧
    (c1.subnets = [] → routeCallsOk ok c1 c2 = []) ∧
    (c2.subnets = [] → routeCallsOk ok c2 c1 = []) ∧
    (∀ ok2, create_peering st a b ok2 = create_peering st a b ok) := by
  refine ⟨by simp [create_peering, hne, h1, h2], by simp [create_peering, hne, h1, h2],
    ?_, ?_, ?_, ?_, fun ok2 => create_peering_ok_irrel st a b ok ok2⟩
  · intro s0 rest hsub hg
    exact routeCallsOk_cons ok c1 c2 s0 rest hsub hg
  · intro s0 rest hsub hg
    exact routeCallsOk_cons ok c2 c1 s0 rest hsub hg
  · intro hsub
    exact routeCallsOk_nil ok c1 c2 hsub
  · intro hsub
    exact routeCallsOk_nil ok c2 c1 hsub

/-- Witness for claim C3 (amended) at the two sample VPCs. -/
theorem create_peering_routes_local_gateway_witness :
    (create_peering stAB "A" "B" okAll).1 = true ∧
    (create_peering stAB "A" "B" okAll).2.2 =
      [NetCall.createVethPair ("peer-" ++ "A") ("peer-" ++ "B"),
       NetCall.attachToBridge vpcA.bridge ("peer-" ++ "A"),
       NetCall.attachToBridge vpcB.bridge ("peer-" ++ "B")]
        ++ routeCallsOk okAll vpcA vpcB ++ routeCallsOk okAll vpcB vpcA ∧
    (∀ s0 rest, vpcA.subnets = s0 :: rest → s0.gateway ≠ "" →
      routeCallsOk okAll vpcA vpcB =
        vpcB.subnets.map (fun s => NetCall.routeAdd s.cidr s0.gateway vpcA.bridge)) ∧
    (∀ s0 rest, vpcB.subnets = s0 :: rest → s0.gateway ≠ "" →
      routeCallsOk okAll vpcB vpcA =
        vpcA.subnets.map (fun s => NetCall.routeAdd s.cidr s0.gateway vpcB.bridge)) ∧
    (vpcA.subnets = [] → routeCallsOk okAll vpcA vpcB = []) ∧
    (vpcB.subnets = [] → routeCallsOk okAll vpcB vpcA = []) ∧
    (∀ ok2, create_peering stAB "A" "B" ok2 = create_peering stAB "A" "B" okAll) :=
  create_peering_routes_local_gateway stAB "A" "B" okAll vpcA vpcB
    (by decide) (by decide) (by decide)

/-- Claim C5: after a successful peering creation between `a` and `b`, a
second creation under either argument order fails and leaves the store
unchanged, and exactly one record for the unordered pair is stored. -/
theorem create_peering_duplicate_order_independent (st : TopoState) (a b : String)
    (ok : String → Bool)
    (ha : (loadVpc st a).isSome = true) (hb : (loadVpc st b).isSome = true)
    (hno : peering_exists st a b = false) :
    (create_peering st a b ok).1 = true ∧
    (create_peering (create_peering st a b ok).2.1 a b ok).1 = false ∧
    (create_peering (create_peering st a b ok).2.1 a b ok).2.1 = (create_peering st a b ok).2.1 ∧
    (create_peering (create_peering st a b ok).2.1 b a ok).1 = false ∧
    (create_peering (create_peering st a b ok).2.1 b a ok).2.1 = (create_peering st a b ok).2.1 ∧
    ((create_peering st a b ok).2.1.peerings.filter
      (fun p => p.1 == peeringKey a b || p.1 == peeringKey b a)).length = 1 := by
  rw [Option.isSome_iff_exists] at ha hb
  obtain ⟨c1, h1⟩ := ha
  obtain ⟨c2, h2⟩ := hb
  have hst' : (create_peering st a b ok).2.1 =
      savePeering st (peeringKey a b) ⟨a, b, "peer-" ++ a, "peer-" ++ b⟩ := by
    simp [create_peering, hno, h1, h2]
  have hk1 : peeringStored st (peeringKey a b) = false := by
    unfold peering_exists at hno
    exact (Bool.or_eq_false_iff.mp hno).1
  have hk2 : peeringStored st (peeringKey b a) = false := by
    unfold peering_exists at hno
    exact (Bool.or_eq_false_iff.mp hno).2
  have hex : peering_exists (create_peering st a b ok).2.1 a b = true := by
    unfold peering_exists
    rw [hst', peeringStored_savePeering_self]
    simp
  have hex2 : peering_exists (create_peering st a b ok).2.1 b a = true := by
    unfold peering_exists
    rw [hst', peeringStored_savePeering_self]
    simp
  have happend : (create_peering st a b ok).2.1.peerings
      = st.peerings ++ [(peeringKey a b, ⟨a, b, "peer-" ++ a, "peer-" ++ b⟩)] := by
    rw [hst']
    unfold savePeering
    rw [if_neg (by unfold peeringStored at hk1; simp [hk1])]
  refine ⟨by simp [create_peering, hno, h1, h2],
    by rw [create_peering_of_exists _ _ _ ok hex],
    by rw [create_peering_of_exists _ _ _ ok hex],
    by rw [create_peering_of_exists _ _ _ ok hex2],
    by rw [create_peering_of_exists _ _ _ ok hex2], ?_⟩
  rw [happend, List.filter_append]
  have hfil : st.peerings.filter
      (fun p => p.1 == peeringKey a b || p.1 == peeringKey b a) = [] := by
    rw [List.filter_eq_nil_iff]
    intro p hp
    unfold peeringStored at hk1 hk2
    rw [List.any_eq_false] at hk1 hk2
    simp only [Bool.or_eq_true, not_or]
    exact ⟨by simpa using hk1 p hp, by simpa using hk2 p hp⟩
  rw [hfil]
  simp

/-- Witness for claim C5 at the two sample VPCs. -/
theorem create_peering_duplicate_order_independent_witness :
    (create_peering stAB "A" "B" okAll).1 = true ∧
    (create_peering (create_peering stAB "A" "B" okAll).2.1 "A" "B" okAll).1 = false ∧
    (create_peering (create_peering stAB "A" "B" okAll).2.1 "A" "B" okAll).2.1
      = (create_peering stAB "A" "B" okAll).2.1 ∧
    (create_peering (create_peering stAB "A" "B" okAll).2.1 "B" "A" okAll).1 = false ∧
    (create_peering (create_peering stAB "A" "B" okAll).2.1 "B" "A" okAll).2.1
      = (create_peering stAB "A" "B" okAll).2.1 ∧
    ((create_peering stAB "A" "B" okAll).2.1.peerings.filter
      (fun p => p.1 == peeringKey "A" "B" || p.1 == peeringKey "B" "A")).length = 1 :=
  create_peering_duplicate_order_independent stAB "A" "B" okAll
    (by decide) (by decide) (by decide)

/-- Claim C8: deleting an existing peering (stored under either ordering)
returns success, issues no network primitive call, leaves the VPC records
and all unrelated peering records untouched, erases the pair's record, and
allows a subsequent creation between the same two VPCs in either argument
order to succeed. -/
theorem delete_peering_only_erases_record (st : TopoState) (a b : String)
    (hone : (peeringStored st (peeringKey a b) = true ∧
             peeringStored st (peeringKey b a) = false) ∨
            (peeringStored st (peeringKey a b) = false ∧
             peeringStored st (peeringKey b a) = true))
    (ha : (loadVpc st a).isSome = true) (hb : (loadVpc st b).isSome = true) :
    (delete_peering st a b).1 = true ∧
    (delete_peering st a b).2.2 = [] ∧
    (delete_peering st a b).2.1.vpcs = st.vpcs ∧
    peeringStored (delete_peering st a b).2.1 (peeringKey a b) = false ∧
    peeringStored (delete_peering st a b).2.1 (peeringKey b a) = false ∧
    (∀ k, k ≠ peeringKey a b → k ≠ peeringKey b a →
      peeringStored (delete_peering st a b).2.1 k = peeringStored st k) ∧
    (∀ ok, (create_peering (delete_peering st a b).2.1 a b ok).1 = true ∧
           (create_peering (delete_peering st a b).2.1 b a ok).1 = true) := by
  rw [Option.isSome_iff_exists] at ha hb
  obtain ⟨c1, h1⟩ := ha
  obtain ⟨c2, h2⟩ := hb
  rcases hone with ⟨ht, hf⟩ | ⟨hf, ht⟩
  · have hres : delete_peering st a b = (true, removePeering st (peeringKey a b), []) := by
      simp [delete_peering, ht]
    have hs1 : peeringStored (delete_peering st a b).2.1 (peeringKey a b) = false := by
      rw [hres, peeringStored_removePeering]
      simp
    have hs2 : peeringStored (delete_peering st a b).2.1 (peeringKey b a) = false := by
      rw [hres, peeringStored_removePeering, hf]
      simp
    refine ⟨by rw [hres], by rw [hres], by rw [hres]; rfl, hs1, hs2, ?_, ?_⟩
    · intro k hk1 _
      rw [hres, peeringStored_removePeering]
      simp [hk1]
    · intro ok
      have hex : peering_exists (delete_peering st a b).2.1 a b = false := by
        unfold peering_exists
        rw [hs1, hs2]
        rfl
      have hex2 : peering_exists (delete_peering st a b).2.1 b a = false := by
        unfold peering_exists
        rw [hs1, hs2]
        rfl
      have hl1 : loadVpc (delete_peering st a b).2.1 a = some c1 := by
        rw [hres, loadVpc_removePeering]; exact h1
      have hl2 : loadVpc (delete_peering st a b).2.1 b = some c2 := by
        rw [hres, loadVpc_removePeering]; exact h2
      exact ⟨by simp [create_peering, hex, hl1, hl2],
        by simp [create_peering, hex2, hl1, hl2]⟩
  · have hres : delete_peering st a b = (true, removePeering st (peeringKey b a), []) := by
      simp [delete_peering, hf, ht]
    have hs1 : peeringStored (delete_peering st a b).2.1 (peeringKey a b) = false := by
      rw [hres, peeringStored_removePeering, hf]
      simp
    have hs2 : peeringStored (delete_peering st a b).2.1 (peeringKey b a) = false := by
      rw [hres, peeringStored_removePeering]
      simp
    refine ⟨by rw [hres], by rw [hres], by rw [hres]; rfl, hs1, hs2, ?_, ?_⟩
    · intro k _ hk2
      rw [hres, peeringStored_removePeering]
      simp [hk2]
    · intro ok
      have hex : peering_exists (delete_peering st a b).2.1 a b = false := by
        unfold peering_exists
        rw [hs1, hs2]
        rfl
      have hex2 : peering_exists (delete_peering st a b).2.1 b a = false := by
        unfold peering_exists
        rw [hs1, hs2]
        rfl
      have hl1 : loadVpc (delete_peering st a b).2.1 a = some c1 := by
        rw [hres, loadVpc_removePeering]; exact h1
      have hl2 : loadVpc (delete_peering st a b).2.1 b = some c2 := by
        rw [hres, loadVpc_removePeering]; exact h2
      exact ⟨by simp [create_peering, hex, hl1, hl2],
        by simp [create_peering, hex2, hl1, hl2]⟩

/-- A store with the two sample VPCs and one stored peering record. -/
def stABPeered : TopoState :=
  ⟨[vpcA, vpcB], [("A-B", ⟨"A", "B", "peer-A", "peer-B"⟩)]⟩

/-- Witness for claim C8 at the peered sample store. -/
theorem delete_peering_only_erases_record_witness :
    (delete_peering stABPeered "A" "B").1 = true ∧
    (delete_peering stABPeered "A" "B").2.2 = [] ∧
    (delete_peering stABPeered "A" "B").2.1.vpcs = stABPeered.vpcs ∧
    peeringStored (delete_peering stABPeered "A" "B").2.1 (peeringKey "A" "B") = false ∧
    peeringStored (delete_peering stABPeered "A" "B").2.1 (peeringKey "B" "A") = false ∧
    (∀ k, k ≠ peeringKey "A" "B" → k ≠ peeringKey "B" "A" →
      peeringStored (delete_peering stABPeered "A" "B").2.1 k = peeringStored stABPeered k) ∧
    (∀ ok, (create_peering (delete_peering stABPeered "A" "B").2.1 "A" "B" ok).1 = true ∧
           (create_peering (delete_peering stABPeered "A" "B").2.1 "B" "A" ok).1 = true) :=
  delete_peering_only_erases_record stABPeered "A" "B"
    (Or.inl ⟨by decide, by decide⟩) (by decide) (by decide)

/-! ## Firewall claims (C4, C7) -/

/-- Claim C4 counterexample: the ingress action token `reject` is not passed
through as the literal token: the emitted directive's action token is the
uppercased `REJECT`, which differs from the literal token. -/
theorem apply_firewall_rule_literal_token_cex :
    (apply_firewall_rule "ns-A-web" ⟨none, none, some "reject"⟩).target = "REJECT" ∧
    (apply_firewall_rule "ns-A-web" ⟨none, none, some "reject"⟩).target ≠ "reject" := by
  decide

/-- Claim C4 (amended): `allow` translates to an accept directive, `deny`
to a drop directive, and any other action token is uppercased and passed
through as the uppercased token (not the literal token); a rule without a
port yields a directive with no port restriction, and rules are issued in
document order. -/
theorem apply_firewall_rule_translation (ns : String) (r : FwRule) (a : String) :
    (r.action = some "allow" → (apply_firewall_rule ns r).target = "ACCEPT") ∧
    (r.action = some "deny" → (apply_firewall_rule ns r).target = "DROP") ∧
    (r.action = some a → pyUpper a ≠ "ALLOW" → pyUpper a ≠ "DENY" →
      (apply_firewall_rule ns r).target = pyUpper a) ∧
    (r.port = none → (apply_firewall_rule ns r).port = none) ∧
    (∀ st v doc cfg target, loadVpc st v = some cfg →
      cfg.subnets.find? (fun s => doc.subnet == some s.cidr) = some target →
      (apply_firewall_rules st v doc).2 =
        doc.ingress.map (fun ru => NetCall.firewall (apply_firewall_rule target.ns ru))) := by
  have hA : pyUpper "allow" = "ALLOW" := by decide
  have hD : pyUpper "deny" = "DENY" := by decide
  refine ⟨?_, ?_, ?_, ?_, ?_⟩
  · intro h
    simp [apply_firewall_rule, h, hA]
  · intro h
    simp [apply_firewall_rule, h, hD]
  · intro h ha1 ha2
    simp only [apply_firewall_rule, h, Option.getD_some]
    rw [if_neg ha1, if_neg ha2]
  · intro h
    simp [apply_firewall_rule, h]
  · intro st v doc cfg target h hfind
    simp [apply_firewall_rules, h, hfind]

/-- Witness for claim C4 (amended) over concrete rules. -/
theorem apply_firewall_rule_translation_witness :
    (apply_firewall_rule "ns1" ⟨none, some 22, some "allow"⟩).target = "ACCEPT" ∧
    (apply_firewall_rule "ns1" ⟨none, none, some "deny"⟩).target = "DROP" ∧
    (apply_firewall_rule "ns1" ⟨none, none, some "log"⟩).target = pyUpper "log" ∧
    (apply_firewall_rule "ns1" ⟨none, none, some "allow"⟩).port = none :=
  ⟨(apply_firewall_rule_translation "ns1" ⟨none, some 22, some "allow"⟩ "x").1 rfl,
   (apply_firewall_rule_translation "ns1" ⟨none, none, some "deny"⟩ "x").2.1 rfl,
   (apply_firewall_rule_translation "ns1" ⟨none, none, some "log"⟩ "log").2.2.1 rfl
     (by decide) (by decide),
   (apply_firewall_rule_translation "ns1" ⟨none, none, some "allow"⟩ "x").2.2.2.1 rfl⟩

/-- Claim C7: applying a one-rule document against a VPC containing the
target subnet issues exactly one inbound directive scoped to that subnet's
namespace, and — the application leaving the store untouched — a second
application of the same document issues one more, for two in total. -/
theorem apply_firewall_rules_append_only (st : TopoState) (v : String) (doc : RuleDoc)
    (cfg : VPCCfg) (target : SubnetCfg) (r : FwRule)
    (h : loadVpc st v = some cfg)
    (hfind : cfg.subnets.find? (fun s => doc.subnet == some s.cidr) = some target)
    (hing : doc.ingress = [r]) :
    apply_firewall_rules st v doc =
      (true, [NetCall.firewall (apply_firewall_rule target.ns r)]) ∧
    (apply_firewall_rules st v doc).2.length = 1 ∧
    ((apply_firewall_rules st v doc).2 ++ (apply_firewall_rules st v doc).2).length = 2 ∧
    (∀ d, NetCall.firewall d ∈ (apply_firewall_rules st v doc).2 → d.ns = target.ns) := by
  have hres : apply_firewall_rules st v doc =
      (true, [NetCall.firewall (apply_firewall_rule target.ns r)]) := by
    simp [apply_firewall_rules, h, hfind, hing]
  refine ⟨hres, by rw [hres]; rfl, by rw [hres]; rfl, ?_⟩
  intro d hd
  rw [hres] at hd
  simp only [List.mem_singleton] at hd
  have hd2 : d = apply_firewall_rule target.ns r := by
    injection hd
  rw [hd2]
  rfl

/-- A one-rule rule-set document targeting the 10.0.1.0/24 subnet. -/
def docSsh : RuleDoc := ⟨some "10.0.1.0/24", [⟨some "tcp", some 22, some "allow"⟩]⟩

/-- Witness for claim C7 at the sample VPC `A`. -/
theorem apply_firewall_rules_append_only_witness :
    apply_firewall_rules stABC "A" docSsh =
      (true, [NetCall.firewall (apply_firewall_rule subnetWeb.ns
        ⟨some "tcp", some 22, some "allow"⟩)]) ∧
    (apply_firewall_rules stABC "A" docSsh).2.length = 1 ∧
    ((apply_firewall_rules stABC "A" docSsh).2 ++ (apply_firewall_rules stABC "A" docSsh).2).length = 2 ∧
    (∀ d, NetCall.firewall d ∈ (apply_firewall_rules stABC "A" docSsh).2 → d.ns = subnetWeb.ns) :=
  apply_firewall_rules_append_only stABC "A" docSsh vpcA subnetWeb
    ⟨some "tcp", some 22, some "allow"⟩ (by decide) (by decide) rfl

end Vpcctl
